import Mathlib

/-!
Verification of the nova-agent server core (agent orchestration loop, decision
parser, tool dispatcher, retrieval scorer and Bedrock model client) against its
natural-language specification.  The definitions below are shallow embeddings of
the TypeScript sources under `src/server/src/agent/`:

* `agentTypes.ts` — `extractJsonObject`, `safeJsonParse`, `toErrorDetails` and
  the request handler / orchestration loop of `createAgentRouter`;
* `retrieval.ts` — `tokenize`, the fixed `DOCS` corpus and `retrieve`;
* `tools.ts` — `createToolContext`, `makePlan`, `retrieve` (tool), `writeDraft`;
* `novaClient.ts` — `extractTextFromConverseLikeJson`, `invokeModelFallback`,
  `novaConverseText`.

JavaScript runtime values that the code manipulates are modelled explicitly:
JSON values by the inductive `Json` (numbers as exact decimal
mantissa/exponent pairs — the claims under study never inspect numeric
formatting, where JS renders IEEE doubles), the JS `undefined` by `Option`,
and `JSON.parse` by the fueled recursive parser `jsonParse` (fuel
`length + 1` always suffices because every recursive call first consumes at
least one character).  All definitions come first, followed by the lemmas
and the claim theorems.
-/

/-- A JSON value as produced by `JSON.parse`.  Object fields are kept in
textual order; a duplicate key is resolved by `objGet` taking the last
occurrence, matching JS object construction order. -/
inductive Json where
  | null : Json
  | bool (b : Bool) : Json
  | num (mantissa : Int) (exp10 : Int) : Json
  | str (s : String) : Json
  | arr (elems : List Json) : Json
  | obj (fields : List (String × Json)) : Json

/-- Property access `o[key]` on a parsed JSON object: last binding wins. -/
def objGet (fields : List (String × Json)) (key : String) : Option Json :=
  (fields.reverse.find? (fun kv => kv.1 == key)).map (fun kv => kv.2)

/-- The JS `key in o` test on a parsed JSON object. -/
def objHasKey (fields : List (String × Json)) (key : String) : Bool :=
  fields.any (fun kv => kv.1 == key)

/-- JSON whitespace accepted by `JSON.parse`. -/
def jsonWs (c : Char) : Bool :=
  c = ' ' || c = '\t' || c = '\n' || c = '\r'

/-- Skip leading JSON whitespace. -/
def skipWs : List Char → List Char
  | [] => []
  | c :: cs => if jsonWs c then skipWs cs else c :: cs

/-- Value of a hexadecimal digit, if any. -/
def hexVal (c : Char) : Option Nat :=
  if '0' ≤ c ∧ c ≤ '9' then some (c.toNat - '0'.toNat)
  else if 'a' ≤ c ∧ c ≤ 'f' then some (c.toNat - 'a'.toNat + 10)
  else if 'A' ≤ c ∧ c ≤ 'F' then some (c.toNat - 'A'.toNat + 10)
  else none

/-- Body of a JSON string literal (opening quote already consumed),
with the escape sequences `JSON.parse` accepts. -/
def parseStringBody : List Char → List Char → Option (String × List Char)
  | _, [] => none
  | acc, '"' :: cs => some ((acc.reverse).asString, cs)
  | acc, '\\' :: 'u' :: h1 :: h2 :: h3 :: h4 :: cs =>
    match hexVal h1, hexVal h2, hexVal h3, hexVal h4 with
    | some a, some b, some c, some d =>
      parseStringBody (Char.ofNat (a * 4096 + b * 256 + c * 16 + d) :: acc) cs
    | _, _, _, _ => none
  | acc, '\\' :: e :: cs =>
    if e = '"' then parseStringBody ('"' :: acc) cs
    else if e = '\\' then parseStringBody ('\\' :: acc) cs
    else if e = '/' then parseStringBody ('/' :: acc) cs
    else if e = 'b' then parseStringBody (Char.ofNat 8 :: acc) cs
    else if e = 'f' then parseStringBody (Char.ofNat 12 :: acc) cs
    else if e = 'n' then parseStringBody ('\n' :: acc) cs
    else if e = 'r' then parseStringBody ('\r' :: acc) cs
    else if e = 't' then parseStringBody ('\t' :: acc) cs
    else none
  | acc, c :: cs =>
    if c.toNat < 32 then none else parseStringBody (c :: acc) cs

/-- Decimal digit test. -/
def isDig (c : Char) : Bool := '0' ≤ c && c ≤ '9'

/-- Split a list into its maximal digit prefix and the remainder. -/
def takeDigits : List Char → List Char × List Char
  | [] => ([], [])
  | c :: cs =>
    if isDig c then
      let p := takeDigits cs
      (c :: p.1, p.2)
    else ([], c :: cs)

/-- Numeric value of a digit string. -/
def digitsToNat (ds : List Char) : Nat :=
  ds.foldl (fun a c => a * 10 + (c.toNat - '0'.toNat)) 0

/-- A JSON number token.  A maximal well-formed token is consumed; a
malformed continuation (`1.`, `1e`, leading zeros …) is left in the
remainder, where the surrounding grammar rejects it exactly as
`JSON.parse` does. -/
def parseNumber (cs0 : List Char) : Option (Json × List Char) :=
  let (neg, cs1) := match cs0 with
    | '-' :: rest => (true, rest)
    | _ => (false, cs0)
  match cs1 with
  | '0' :: rest =>
    parseNumTail neg [ '0' ] rest
  | c :: _ =>
    if isDig c then
      let p := takeDigits cs1
      parseNumTail neg p.1 p.2
    else none
  | [] => none
where
  /-- Fraction and exponent parts after the integer digits. -/
  parseNumTail (neg : Bool) (intDs : List Char) (rest : List Char) :
      Option (Json × List Char) :=
    let (fracDs, rest1) := match rest with
      | '.' :: r =>
        let p := takeDigits r
        if p.1.isEmpty then ([], rest) else (p.1, p.2)
      | _ => ([], rest)
    let (expVal, rest2) : Int × List Char := match rest1 with
      | 'e' :: r => parseExp r rest1
      | 'E' :: r => parseExp r rest1
      | _ => (0, rest1)
    let mant : Int := Int.ofNat (digitsToNat (intDs ++ fracDs))
    let mant := if neg then -mant else mant
    some (.num mant (expVal - Int.ofNat fracDs.length), rest2)
  /-- Exponent digits with optional sign; malformed → left unconsumed. -/
  parseExp (r : List Char) (orig : List Char) : Int × List Char :=
    let (sgn, r1) := match r with
      | '+' :: rr => (1, rr)
      | '-' :: rr => (-1, rr)
      | _ => ((1 : Int), r)
    let p := takeDigits r1
    if p.1.isEmpty then (0, orig)
    else (sgn * Int.ofNat (digitsToNat p.1), p.2)

mutual

/-- One JSON value and the unconsumed remainder, per the `JSON.parse`
grammar.  Fuel decreases on every mutual call. -/
def parseValue : Nat → List Char → Option (Json × List Char)
  | 0, _ => none
  | fuel + 1, cs0 =>
    match skipWs cs0 with
    | [] => none
    | '\x7b' :: cs =>
      (match skipWs cs with
       | '\x7d' :: rest => some (.obj [], rest)
       | _ => parseMembers fuel [] cs)
    | '[' :: cs =>
      (match skipWs cs with
       | ']' :: rest => some (.arr [], rest)
       | _ => parseElems fuel [] cs)
    | '"' :: cs => (parseStringBody [] cs).map (fun p => (.str p.1, p.2))
    | 't' :: cs =>
      if cs.take 3 = ['r', 'u', 'e'] then some (.bool true, cs.drop 3) else none
    | 'f' :: cs =>
      if cs.take 4 = ['a', 'l', 's', 'e'] then some (.bool false, cs.drop 4) else none
    | 'n' :: cs =>
      if cs.take 3 = ['u', 'l', 'l'] then some (.null, cs.drop 3) else none
    | c :: cs =>
      if c = '-' || isDig c then parseNumber (c :: cs) else none

/-- Members of a JSON object after `{` (at least one member expected). -/
def parseMembers : Nat → List (String × Json) → List Char → Option (Json × List Char)
  | 0, _, _ => none
  | fuel + 1, acc, cs =>
    match skipWs cs with
    | '"' :: cs1 =>
      (match parseStringBody [] cs1 with
       | none => none
       | some (key, cs2) =>
         match skipWs cs2 with
         | ':' :: cs3 =>
           (match parseValue fuel cs3 with
            | none => none
            | some (v, cs4) =>
              match skipWs cs4 with
              | ',' :: cs5 => parseMembers fuel (acc ++ [(key, v)]) cs5
              | '\x7d' :: cs5 => some (.obj (acc ++ [(key, v)]), cs5)
              | _ => none)
         | _ => none)
    | _ => none

/-- Elements of a JSON array after `[` (at least one element expected). -/
def parseElems : Nat → List Json → List Char → Option (Json × List Char)
  | 0, _, _ => none
  | fuel + 1, acc, cs =>
    match parseValue fuel cs with
    | none => none
    | some (v, cs1) =>
      match skipWs cs1 with
      | ',' :: cs2 => parseElems fuel (acc ++ [v]) cs2
      | ']' :: cs2 => some (.arr (acc ++ [v]), cs2)
      | _ => none

end

/-- The `JSON.parse`: `none` is a thrown `SyntaxError`. -/
def jsonParse (s : String) : Option Json :=
  match parseValue (s.length + 1) s.data with
  | some (v, rest) => if (skipWs rest).isEmpty then some v else none
  | none => none

/-- JS truthiness (restricted to JSON-representable values): `null`,
`false`, `0` and `""` are falsy. -/
def jsFalsy : Json → Bool
  | .null => true
  | .bool b => !b
  | .num m _ => m == 0
  | .str s => s == ""
  | .arr _ => false
  | .obj _ => false

/-- Exact decimal rendering of a parsed number.  (JS renders the nearest
IEEE double instead; no claim under study observes number formatting.) -/
def numToString (m : Int) (e : Int) : String :=
  if e = 0 then m.repr else m.repr ++ "e" ++ e.repr

mutual

/-- The JS `String(v)` conversion on JSON-representable values. -/
def jsToString : Json → String
  | .null => "null"
  | .bool b => if b then "true" else "false"
  | .num m e => numToString m e
  | .str s => s
  | .arr l => jsArrJoin l
  | .obj _ => "[object Object]"

/-- The `Array.prototype.toString` = `join(",")`, rendering `null` entries empty. -/
def jsArrJoin : List Json → String
  | [] => ""
  | [.null] => ""
  | [v] => jsToString v
  | .null :: rest => "," ++ jsArrJoin rest
  | v :: rest => jsToString v ++ "," ++ jsArrJoin rest

end

/-- JSON string escaping used by `JSON.stringify`. -/
def escapeJsonChar (c : Char) : String :=
  if c = '"' then "\\\""
  else if c = '\\' then "\\\\"
  else if c = '\n' then "\\n"
  else if c = '\r' then "\\r"
  else if c = '\t' then "\\t"
  else if c.toNat = 8 then "\\b"
  else if c.toNat = 12 then "\\f"
  else if c.toNat < 32 then
    "\\u00" ++ (Nat.toDigits 16 c.toNat).asString
  else String.singleton c

/-- A JSON string literal for `s`. -/
def escapeJsonString (s : String) : String :=
  "\"" ++ String.join (s.data.map escapeJsonChar) ++ "\""

mutual

/-- The `JSON.stringify` on JSON-representable values. -/
def Json.stringify : Json → String
  | .null => "null"
  | .bool b => if b then "true" else "false"
  | .num m e => numToString m e
  | .str s => escapeJsonString s
  | .arr l => "[" ++ stringifyElems l ++ "]"
  | .obj fs => "\x7b" ++ stringifyFields fs ++ "\x7d"

/-- Comma-joined stringified array elements. -/
def stringifyElems : List Json → String
  | [] => ""
  | [v] => Json.stringify v
  | v :: rest => Json.stringify v ++ "," ++ stringifyElems rest

/-- Comma-joined stringified object fields. -/
def stringifyFields : List (String × Json) → String
  | [] => ""
  | [(k, v)] => escapeJsonString k ++ ":" ++ Json.stringify v
  | (k, v) :: rest =>
    escapeJsonString k ++ ":" ++ Json.stringify v ++ "," ++ stringifyFields rest

end

/-- JS `String.prototype.trim`. -/
def jsTrim (s : String) : String :=
  (((s.data.dropWhile Char.isWhitespace).reverse.dropWhile Char.isWhitespace).reverse).asString

/-- JS `String.prototype.startsWith`. -/
def jsStartsWith (s pre : String) : Bool :=
  pre.data.isPrefixOf s.data

/-- JS `String.prototype.endsWith`. -/
def jsEndsWith (s suf : String) : Bool :=
  suf.data.isSuffixOf s.data

/-- JS `String.prototype.toLowerCase`. -/
def jsToLower (s : String) : String :=
  (s.data.map Char.toLower).asString

/-- Whether `pat` occurs as a contiguous sublist. -/
def subTermAux (pat : List Char) : List Char → Bool
  | [] => pat.isEmpty
  | c :: cs => pat.isPrefixOf (c :: cs) || subTermAux pat cs

/-- JS `String.prototype.includes`. -/
def jsIncludes (s pat : String) : Bool :=
  subTermAux pat.data s.data

/-- Whether the four characters at the head read `json` case-insensitively
(the `(?:json)?` group of the fence regex under the `i` flag). -/
def lowerEq4Json : List Char → Bool
  | a :: b :: c :: d :: _ =>
    a.toLower = 'j' && b.toLower = 's' && c.toLower = 'o' && d.toLower = 'n'
  | _ => false

/-- The fence regex `/^(?:json)?\s*([\s\S]*?)\s*$/i`-style match of
`agentTypes.ts` line 48 (backtick fences): on `trimmed`, an anchored match
strips the opening triple backtick, an optional case-insensitive `json`
tag directly after it, and the closing triple backtick; the capture (whose
surrounding whitespace the regex' `\s*` groups absorb and the subsequent
`.trim()` removes anyway) is returned untrimmed here. -/
def fenceInner (trimmed : String) : Option String :=
  let cs := trimmed.data
  if cs.take 3 = ['`', '`', '`'] then
    let rest := cs.drop 3
    let rest2 := if lowerEq4Json rest then rest.drop 4 else rest
    if 3 ≤ rest2.length ∧ rest2.drop (rest2.length - 3) = ['`', '`', '`'] then
      some ((rest2.take (rest2.length - 3)).asString)
    else none
  else none

/-- Index of the last occurrence of `c` (JS `lastIndexOf`). -/
def lastIdxOf (c : Char) (l : List Char) : Option Nat :=
  ((l.reverse).findIdx? (· = c)).map (fun k => l.length - 1 - k)

/-- JS `candidate.slice(i, j + 1)`. -/
def sliceBetween (cl : List Char) (i j : Nat) : String :=
  ((cl.drop i).take (j + 1 - i)).asString

/-- The bracket fallback of `extractJsonObject` (first `[` / last `]`). -/
def bracketSlice (candidate : String) : String :=
  let cl := candidate.data
  match cl.findIdx? (· = '['), lastIdxOf ']' cl with
  | some i, some j => if i < j then sliceBetween cl i j else candidate
  | _, _ => candidate

/-- The `candidate` of `agentTypes.ts` lines 47–49: the trimmed text, with
a matched fence stripped and the capture re-trimmed. -/
def extractCandidate (text : String) : String :=
  let trimmed := jsTrim text
  match fenceInner trimmed with
  | some inner => jsTrim inner
  | none => trimmed

/-- The `extractJsonObject` of `agentTypes.ts` lines 45–66. -/
def extractJsonObject (text : String) : String :=
  let candidate := extractCandidate text
  if jsStartsWith candidate "\x7b" || jsStartsWith candidate "[" then candidate
  else
    let cl := candidate.data
    match cl.findIdx? (· = '\x7b'), lastIdxOf '\x7d' cl with
    | some i, some j => if i < j then sliceBetween cl i j else bracketSlice candidate
    | _, _ => bracketSlice candidate

/-- The `safeJsonParse` of `agentTypes.ts` lines 68–74: a thrown `JSON.parse`
error becomes the absence value `none` (the JS `null`). -/
def safeJsonParse (text : String) : Option Json :=
  jsonParse (extractJsonObject text)

/-- A document of the fixed corpus. -/
structure Doc where
  id : String
  title : String
  text : String

/-- A retrieval hit (`retrieval.ts` lines 1–6). -/
structure RetrievalHit where
  id : String
  title : String
  snippet : String
  score : Nat
deriving DecidableEq

/-- The fixed corpus `DOCS` of `retrieval.ts`. -/
def DOCS : List Doc := [
  ⟨"hackathon-submission", "Hackathon submission checklist",
    String.intercalate "\n" [
      "Pick one category.",
      "Provide a brief text description explaining what you built and how you leverage Amazon Nova.",
      "Provide a demo video around 3 minutes showing the project functioning and include #AmazonNova.",
      "Provide a code repository link (share access if private)."]⟩,
  ⟨"nova-act-summary", "Nova Act summary",
    String.intercalate "\n" [
      "Nova Act is an AWS service to build and manage fleets of reliable AI agents for automating production UI workflows at scale.",
      "It automates browser workflows and can integrate with external tools via API calls and remote MCP."]⟩,
  ⟨"agentic-best-practices", "Agentic demo best practices",
    String.intercalate "\n" [
      "Show a clear goal, a plan, tool usage, and a trace of steps.",
      "Keep the demo crisp and within 3 minutes.",
      "Make errors visible and actionable (missing credentials, missing model access)."]⟩]

/-- Split a character list at whitespace characters (the pieces between
consecutive separators; empties are produced at separator runs, exactly as
JS `split` produces them, and are filtered away by the caller). -/
def splitWsAux : List Char → List Char → List String
  | acc, [] => [acc.reverse.asString]
  | acc, c :: cs =>
    if c.isWhitespace then acc.reverse.asString :: splitWsAux [] cs
    else splitWsAux (c :: acc) cs

/-- The `tokenize` of `retrieval.ts`: lowercase, replace every character outside
lowercase alphanumerics and whitespace by a space, split on whitespace runs,
drop empties.  (The JS `\s` class and Lean's `Char.isWhitespace` agree on the
ASCII inputs at hand.) -/
def tokenize (s : String) : List String :=
  let lowered := (s.data.map Char.toLower)
  let replaced := lowered.map (fun c =>
    if ('a' ≤ c ∧ c ≤ 'z') ∨ ('0' ≤ c ∧ c ≤ '9') ∨ c.isWhitespace then c else ' ')
  (splitWsAux [] replaced).filter (fun t => t ≠ "")

/-- Insert `x` into a descending-sorted list, after every element of score
greater than or equal to `score x`. -/
def insertByDesc (score : α → Nat) (x : α) : List α → List α
  | [] => [x]
  | y :: ys => if score y < score x then x :: y :: ys else y :: insertByDesc score x ys

/-- Stable sort by descending `score`.  This models the JS
`.sort((a, b) => b.score - a.score)`: `Array.prototype.sort` is stable, and
a stable sort with respect to a total preorder is unique as a function, so
this stable insertion sort computes exactly the same list. -/
def stableSortDesc (score : α → Nat) (l : List α) : List α :=
  l.foldl (fun acc x => insertByDesc score x acc) []

/-- The `retrieve` of `retrieval.ts` lines 52–75: score each document by a fold
over the query tokens testing membership in the document token set, drop
zero scores, sort stably by descending score, truncate to `limit`, build
hits with 400-character-truncated snippets. -/
def retrieve (query : String) (limit : Nat) : List RetrievalHit :=
  let q := tokenize query
  if q.isEmpty then []
  else
    let scored := DOCS.map (fun d =>
      let t := tokenize (d.title ++ " " ++ d.text)
      let score := q.foldl (fun acc term => acc + (if t.contains term then 1 else 0)) 0
      (d, score))
    let kept := (stableSortDesc (fun x => x.2) (scored.filter (fun x => 0 < x.2))).take limit
    kept.map (fun p =>
      let snippet := if 400 < p.1.text.length then (p.1.text.data.take 400).asString ++ "…" else p.1.text
      RetrievalHit.mk p.1.id p.1.title snippet p.2)

/-- The retrieval scorer as the spec words it (§4.5): each document's score
is the number of query-token occurrences (with repetition) whose token is a
member of the document's token set; zero-scoring documents are excluded; the
rest are stably sorted by descending score and truncated to the limit. -/
def retrieveSpec (query : String) (limit : Nat) : List RetrievalHit :=
  let q := tokenize query
  if q.isEmpty then []
  else
    let scored := DOCS.map (fun d =>
      let t := tokenize (d.title ++ " " ++ d.text)
      (d, (q.filter (fun term => t.contains term)).length))
    let kept := (stableSortDesc (fun x => x.2) (scored.filter (fun x => 0 < x.2))).take limit
    kept.map (fun p =>
      let snippet := if 400 < p.1.text.length then (p.1.text.data.take 400).asString ++ "…" else p.1.text
      RetrievalHit.mk p.1.id p.1.title snippet p.2)

/-- AWS SDK service-error metadata (the `metadata` bag). -/
structure ErrorMetadata where
  httpStatusCode : Option Int
  requestId : Option String
  attempts : Option Int
  totalRetryDelay : Option Int
deriving DecidableEq

/-- A thrown JS error value: a `name`, a `message`, and the optional AWS
SDK fault/metadata fields `toErrorDetails` copies. -/
structure JsError where
  name : String
  message : String
  code : Option String
  fault : Option String
  metadata : Option ErrorMetadata
deriving DecidableEq

/-- The `new Error(msg)`. -/
def plainError (msg : String) : JsError := ⟨"Error", msg, none, none, none⟩

/-- A `TypeError` as thrown by property access on `undefined`. -/
def typeError (msg : String) : JsError := ⟨"TypeError", msg, none, none, none⟩

/-- The error-details object assembled by `toErrorDetails`. -/
structure ErrorDetails where
  name : Option String
  message : String
  code : Option String
  fault : Option String
  metadata : Option ErrorMetadata
deriving DecidableEq

/-- The `toErrorDetails` of `agentTypes.ts` lines 76–98 on an `Error` object. -/
def toErrorDetails (e : JsError) : ErrorDetails :=
  ⟨some e.name, e.message, e.code, e.fault, e.metadata⟩

/-- Per-run mutable tool state.  `draft` is an `Option` because `writeDraft`
stores the JS `undefined` when its input serializes to `undefined`. -/
structure ToolContext where
  draft : Option String
  plan : List String
deriving DecidableEq

/-- The `createToolContext`. -/
def createToolContext : ToolContext := ⟨some "", []⟩

/-- The tools registered in the dispatch of `agentTypes.ts` lines 196–228. -/
inductive ToolName where
  | makePlan
  | retrieve
  | writeDraft
deriving DecidableEq

/-- The literal name of a tool. -/
def toolNameString : ToolName → String
  | .makePlan => "makePlan"
  | .retrieve => "retrieve"
  | .writeDraft => "writeDraft"

/-- The `isToolName` of `agentTypes.ts` lines 41–43, as a classifier: `some`
exactly when the JS type guard returns `true`. -/
def isToolName : String → Option ToolName
  | "makePlan" => some .makePlan
  | "retrieve" => some .retrieve
  | "writeDraft" => some .writeDraft
  | _ => none

/-- The `isToolName` applied to an arbitrary, possibly missing field value:
only a string can equal one of the three names. -/
def isToolNameValue : Option Json → Option ToolName
  | some (.str s) => isToolName s
  | _ => none

/-- The `typeof input === "string" ? input : JSON.stringify(input)` where
`input` may be the JS `undefined` (`none`); `JSON.stringify(undefined)` is
itself `undefined`. -/
def jsArgString : Option Json → Option String
  | some (.str s) => some s
  | some j => some (Json.stringify j)
  | none => none

/-- Template-literal rendering of a possibly-`undefined` string. -/
def jsTemplate : Option String → String
  | some s => s
  | none => "undefined"

/-- The `makePlan` of `tools.ts` lines 124–135: builds the five-step template,
overwrites `ctx.plan`, returns the plan. -/
def makePlan (ctx : ToolContext) (input : Option Json) : List String × ToolContext :=
  let goal := jsArgString input
  let plan := [
    "Understand the goal: " ++ jsTemplate goal,
    "Retrieve relevant context and constraints",
    "Propose an approach and key steps",
    "Draft the output",
    "Refine and finalize"]
  (plan, { ctx with plan := plan })

/-- The `retrieve` of `tools.ts` lines 137–141: queries the scorer with a fixed
limit of 5 and does not touch the context.  When the input serializes to
`undefined`, `retrieveImpl(undefined, 5)` throws a `TypeError` from
`undefined.toLowerCase()` (exact runtime message engine-specific). -/
def retrieveTool (ctx : ToolContext) (input : Option Json) :
    Except JsError (List RetrievalHit) × ToolContext :=
  match jsArgString input with
  | none => (.error (typeError "Cannot read properties of undefined"), ctx)
  | some q => (.ok (retrieve q 5), ctx)

/-- The `writeDraft` of `tools.ts` lines 143–147: stores the serialized input as
`ctx.draft` and returns it. -/
def writeDraft (ctx : ToolContext) (input : Option Json) :
    Option String × ToolContext :=
  let text := jsArgString input
  (text, { ctx with draft := text })

/-- The (typed) output value a dispatched tool returns. -/
inductive ToolOutput where
  | planOut (plan : List String)
  | hitsOut (hits : List RetrievalHit)
  | draftOut (draft : Option String)
deriving DecidableEq

/-- A retrieval hit as a JSON value (for `JSON.stringify` feedback). -/
def hitToJson (h : RetrievalHit) : Json :=
  .obj [("id", .str h.id), ("title", .str h.title),
        ("snippet", .str h.snippet), ("score", .num (Int.ofNat h.score) 0)]

/-- The `JSON.stringify` of a tool output value; an `undefined` draft property
is dropped, as `JSON.stringify` drops `undefined` members. -/
def toolOutputJsonString : ToolOutput → String
  | .planOut plan => Json.stringify (.obj [("plan", .arr (plan.map Json.str))])
  | .hitsOut hits => Json.stringify (.obj [("hits", .arr (hits.map hitToJson))])
  | .draftOut (some d) => Json.stringify (.obj [("draft", .str d)])
  | .draftOut none => Json.stringify (.obj [])

/-- The feedback turn content `JSON.stringify({ tool, output })` pushed
after a successful tool call (`agentTypes.ts` lines 205–208 / 223–226). -/
def toolFeedback (tool : ToolName) (out : ToolOutput) : String :=
  "\x7b\"tool\":" ++ escapeJsonString (toolNameString tool) ++
    ",\"output\":" ++ toolOutputJsonString out ++ "\x7d"

/-- A conversation role (the handler only ever builds user/assistant turns). -/
inductive Role where
  | user
  | assistant
deriving DecidableEq

/-- A conversation turn. -/
structure AgentMessage where
  role : Role
  content : String
deriving DecidableEq

/-- A recorded tool call (`AgentToolCall` of `agentTypes.ts`). -/
structure AgentToolCall where
  tool : ToolName
  input : Option Json

/-- A transcript step (`AgentStep` of `agentTypes.ts`). -/
inductive AgentStep where
  | model (output : String)
  | tool (call : AgentToolCall) (output : ToolOutput)
  | error (message : String)

/-- Number of Model steps in a transcript. -/
def countModelSteps (steps : List AgentStep) : Nat :=
  steps.countP (fun s => match s with | .model _ => true | _ => false)

/-- The loop-owned mutable state: transcript, conversation, tool context. -/
structure LoopState where
  steps : List AgentStep
  messages : List AgentMessage
  ctx : ToolContext

/-- Outcome of one loop iteration after a successful model call. -/
inductive TurnResult where
  | next (st : LoopState)
  | finalResp (output : String) (st : LoopState)
  | thrown (e : JsError) (st : LoopState)

/-- The decision-parse failure message thrown at `agentTypes.ts` line 185. -/
def parseErrorMessage : String :=
  "Model did not return valid JSON decision. Ensure the model is following the JSON-only contract."

/-- The gate of `agentTypes.ts` line 184: `!parsed`, `typeof parsed !==
"object"` and `!("action" in parsed)` all throw; what passes is exactly a
(truthy) object carrying an `action` key. -/
def decisionGate : Option Json → Option (List (String × Json))
  | none => none
  | some j =>
    if jsFalsy j then none
    else match j with
      | .obj fields => if objHasKey fields "action" then some fields else none
      | _ => none

/-- The `String(x)` on a possibly-`undefined` value. -/
def jsToStringU : Option Json → String
  | none => "undefined"
  | some v => jsToString v

/-- The `String(x ?? "")`: nullish values coalesce to the empty string. -/
def jsCoalToString : Option Json → String
  | none => ""
  | some .null => ""
  | some v => jsToString v

/-- Append the tool step and the serialized feedback user turn, then
continue the loop (`agentTypes.ts` lines 204–209 / 222–227). -/
def continueWith (tool : ToolName) (input : Option Json) (out : ToolOutput)
    (ctx' : ToolContext) (st1 : LoopState) : TurnResult :=
  .next ⟨st1.steps ++ [.tool ⟨tool, input⟩ out],
         st1.messages ++ [⟨.user, toolFeedback tool out⟩],
         ctx'⟩

/-- Dispatch to a registered tool (`agentTypes.ts` lines 200–202 / 218–220). -/
def dispatchTool (tool : ToolName) (input : Option Json) (st1 : LoopState) : TurnResult :=
  match tool with
  | .makePlan =>
    let r := makePlan st1.ctx input
    continueWith .makePlan input (.planOut r.1) r.2 st1
  | .retrieve =>
    let r := retrieveTool st1.ctx input
    (match r.1 with
     | .error e => .thrown e { st1 with ctx := r.2 }
     | .ok hits => continueWith .retrieve input (.hitsOut hits) r.2 st1)
  | .writeDraft =>
    let r := writeDraft st1.ctx input
    continueWith .writeDraft input (.draftOut r.1) r.2 st1

/-- One iteration of the loop body after the model text arrived
(`agentTypes.ts` lines 180–230): record the Model step and assistant turn,
parse, then finalize, dispatch, or throw. -/
def stepTurn (text : String) (st : LoopState) : TurnResult :=
  let st1 : LoopState :=
    ⟨st.steps ++ [.model text], st.messages ++ [⟨.assistant, text⟩], st.ctx⟩
  match decisionGate (safeJsonParse text) with
  | none => .thrown (plainError parseErrorMessage) st1
  | some fields =>
    match objGet fields "action" with
    | some (.str a) =>
      if a = "final" then
        .finalResp (jsCoalToString (objGet fields "output")) st1
      else
        match isToolName a with
        | some tool => dispatchTool tool (objGet fields "input") st1
        | none =>
          if a = "tool" then
            match isToolNameValue (objGet fields "tool") with
            | some tool => dispatchTool tool (objGet fields "input") st1
            | none =>
              .thrown (plainError ("Unknown or missing tool: " ++
                jsToStringU (objGet fields "tool"))) st1
          else
            .thrown (plainError ("Unknown model action: " ++ a)) st1
    | other =>
      .thrown (plainError ("Unknown model action: " ++ jsToStringU other)) st1

/-- The model backend as the loop sees it: turn index and accumulated
conversation in, generated text or a thrown service error out. -/
abbrev ModelOracle := Nat → List AgentMessage → Except JsError String

/-- The `maxTurns` of `agentTypes.ts` line 168. -/
def maxTurns : Nat := 8

/-- Result of the `for` loop: a Final answer, fuel exhaustion, or an
exception unwinding to the `catch`, each with the loop state it left. -/
inductive LoopResult where
  | finalResp (output : String) (st : LoopState)
  | budget (st : LoopState)
  | thrown (e : JsError) (st : LoopState)

/-- The `for (turn = 0; turn < maxTurns; ...)` loop of `agentTypes.ts`
lines 171–231, with `fuel = maxTurns - turn` remaining iterations. -/
def runLoop (oracle : ModelOracle) : Nat → Nat → LoopState → LoopResult
  | _, 0, st => .budget st
  | turn, fuel + 1, st =>
    match oracle turn st.messages with
    | .error e => .thrown e st
    | .ok text =>
      match stepTurn text st with
      | .next st' => runLoop oracle (turn + 1) fuel st'
      | .finalResp out st' => .finalResp out st'
      | .thrown e st' => .thrown e st'

/-- The response bodies sent by the route, one constructor per `res.json`
shape of `agentTypes.ts` lines 189–246. -/
inductive AgentResponse where
  | success (final : String) (steps : List AgentStep)
  | budgetFailure (error : String) (steps : List AgentStep)
  | catchFailure (error : String) (details : ErrorDetails) (hint : String)
      (steps : List AgentStep)

/-- The turn-budget failure message of `agentTypes.ts` line 233. -/
def budgetMessage : String :=
  "Agent exceeded max turns without producing a final answer."

/-- The diagnostic hint of the catch handler (`agentTypes.ts` lines 243–244). -/
def hintFor (region : String) : String :=
  "If this is an AWS/Bedrock issue, verify AWS_REGION=" ++ region ++
    ", credentials, Bedrock model access, and NOVA_MODEL_ID."

/-- Map a loop result to the response sent: success body, the budget
failure (`error` and `steps` only), or the catch handler, which appends the
Error step and attaches details and hint (`agentTypes.ts` lines 233–246). -/
def respondOf (region : String) : LoopResult → AgentResponse
  | .finalResp out st => .success out st.steps
  | .budget st => .budgetFailure budgetMessage st.steps
  | .thrown e st =>
    let d := toErrorDetails e
    .catchFailure d.message d (hintFor region) (st.steps ++ [.error d.message])

/-- The environment variables the route reads. -/
structure ServerEnv where
  demoApiKey : Option String
  novaModelId : Option String
  awsRegion : Option String

/-- An incoming request: the API-key header and the parsed JSON body
(`req.body` may be absent). -/
structure AgentHttpRequest where
  headerApiKey : Option String
  body : Option Json

/-- Property access on the possibly-missing request body (`body.goal`
etc.); non-objects have no properties. -/
def jsProp (v : Option Json) (key : String) : Option Json :=
  match v with
  | some (.obj fields) => objGet fields key
  | _ => none

/-- One entry of `body.messages` through the sanitizing chain of
`agentTypes.ts` lines 117–129: kept only if it is a (truthy) object whose
`role` is `user`/`assistant` and whose `content` is a string that trims
nonempty.  (Arrays pass the `typeof` filter but their `role` property is
`undefined`, so they are dropped by the `map` step, as here.) -/
def sanitizeEntry : Json → Option AgentMessage
  | .obj fields =>
    (match objGet fields "role", objGet fields "content" with
     | some (.str r), some (.str c) =>
       if r = "user" ∨ r = "assistant" then
         let t := jsTrim c
         if t = "" then none
         else some ⟨if r = "user" then .user else .assistant, t⟩
       else none
     | _, _ => none)
  | _ => none

/-- JS `slice(-n)`: the last `n` elements. -/
def lastN (n : Nat) (l : List α) : List α := l.drop (l.length - n)

/-- The retained history (`agentTypes.ts` lines 117–131): sanitize, then
`slice(-12)`. -/
def sanitizeHistory (msgs : List Json) : List AgentMessage :=
  lastN 12 (msgs.filterMap sanitizeEntry)

/-- The `typeof body.goal === "string" ? body.goal.trim() : ""`. -/
def bodyGoal (body : Option Json) : String :=
  match jsProp body "goal" with
  | some (.str s) => jsTrim s
  | _ => ""

/-- The `typeof body.context === "string" ? body.context.trim() : ""`. -/
def bodyContext (body : Option Json) : String :=
  match jsProp body "context" with
  | some (.str s) => jsTrim s
  | _ => ""

/-- The `Array.isArray(body.messages) ? <sanitize> : []`. -/
def bodyHistory (body : Option Json) : List AgentMessage :=
  match jsProp body "messages" with
  | some (.arr l) => sanitizeHistory l
  | _ => []

/-- Content of the fresh goal turn (`agentTypes.ts` lines 159–165). -/
def goalContent (goal context : String) : String :=
  goal ++ (if context ≠ "" then "\n\nContext:\n" ++ context else "") ++
    "\n\nIf needed, start by making a plan, then use tools as needed, then finalize."

/-- The message list a run starts from (`agentTypes.ts` lines 157–166):
the retained history plus one new user turn carrying the goal. -/
def initialMessages (body : Option Json) : List AgentMessage :=
  bodyHistory body ++ [⟨.user, goalContent (bodyGoal body) (bodyContext body)⟩]

/-- The JSON bodies the route can send, one constructor per `res.json`
site: 401, the two pre-run validation errors, or a run outcome. -/
inductive HttpResponse where
  | unauthorized
  | missingGoal
  | missingModelId
  | agent (r : AgentResponse)

/-- The full `POST /agent` handler of `agentTypes.ts` lines 103–248, with
the model backend abstracted as an oracle (the only nondeterministic
collaborator). -/
def handleAgentRequest (env : ServerEnv) (req : AgentHttpRequest)
    (oracle : ModelOracle) : HttpResponse :=
  let authFailed : Bool := match env.demoApiKey with
    | some expected => expected != "" && req.headerApiKey != some expected
    | none => false
  if authFailed then .unauthorized
  else if bodyGoal req.body = "" then .missingGoal
  else match env.novaModelId with
    | none => .missingModelId
    | some "" => .missingModelId
    | some _ =>
      let region := match env.awsRegion with
        | some r => r
        | none => "(unset)"
      .agent (respondOf region
        (runLoop oracle 0 maxTurns ⟨[], initialMessages req.body, createToolContext⟩))

/-- The `error` member of the sent JSON body, if present. -/
def respError : HttpResponse → Option String
  | .unauthorized => some "Unauthorized"
  | .missingGoal => some "Missing required field: goal"
  | .missingModelId =>
    some "Missing NOVA_MODEL_ID. Set it in your server environment (and ensure Bedrock model access is enabled)."
  | .agent (.success _ _) => none
  | .agent (.budgetFailure e _) => some e
  | .agent (.catchFailure e _ _ _) => some e

/-- The `details` member of the sent JSON body, if present. -/
def respDetails : HttpResponse → Option ErrorDetails
  | .agent (.catchFailure _ d _ _) => some d
  | _ => none

/-- The `hint` member of the sent JSON body, if present. -/
def respHint : HttpResponse → Option String
  | .agent (.catchFailure _ _ h _) => some h
  | _ => none

/-- The `steps` member of the sent JSON body, if present. -/
def respSteps : HttpResponse → Option (List AgentStep)
  | .agent (.success _ s) => some s
  | .agent (.budgetFailure _ s) => some s
  | .agent (.catchFailure _ _ _ s) => some s
  | _ => none

/-- The `final` member of the sent JSON body, if present. -/
def respFinal : HttpResponse → Option String
  | .agent (.success f _) => some f
  | _ => none

/-- One content block of a Converse API response message (`{ text? }`). -/
structure ContentPart where
  text : Option String

/-- What the Bedrock runtime returns to the two protocols: the Converse
(structured) call yields content blocks, the InvokeModel (single-call)
protocol yields a raw response body to be JSON-parsed.  Either call can
instead fail with a service error.  Requests within one `novaConverseText`
invocation carry identical data, so the backends are indexed by protocol
only. -/
structure Backend where
  converse : Except JsError (List ContentPart)
  invokeModel : Except JsError String

/-- The `extractTextFromConverseLikeJson` of `novaClient.ts` lines 23–36:
structured content blocks win if their concatenation is nonempty; then the
first flat field among `outputText`, `generation`, `completion`, `text`
that holds a string — empty or not — is returned; otherwise the empty
string. -/
def extractTextFromConverseLikeJson (json : Option Json) : String :=
  let fromParts := contentBlocksText json
  match fromParts with
  | some t =>
    if t ≠ "" then t
    else extractFlatField json
  | none => extractFlatField json
where
  /-- `json?.output?.message?.content`, joined when it is an array
  (`novaClient.ts` lines 24–28). -/
  contentBlocksText (json : Option Json) : Option String :=
    match jsProp (jsProp (jsProp json "output") "message") "content" with
    | some (.arr parts) =>
      some (String.join (parts.map (fun p =>
        match jsProp (some p) "text" with
        | some (.str t) => t
        | _ => "")))
    | _ => none
  /-- The flat legacy fields, in order; `typeof x === "string"` alone
  selects a field, so an empty string field is returned as-is. -/
  extractFlatField (json : Option Json) : String :=
    match jsProp json "outputText" with
    | some (.str s) => s
    | _ =>
      match jsProp json "generation" with
      | some (.str s) => s
      | _ =>
        match jsProp json "completion" with
        | some (.str s) => s
        | _ =>
          match jsProp json "text" with
          | some (.str s) => s
          | _ => ""

/-- The `invokeModelFallback` of `novaClient.ts` lines 38–66: send the
single-call request, JSON-parse the body (a parse failure throws a
`SyntaxError`), extract text, and fail on empty text. -/
def invokeModelFallback (backend : Backend) : Except JsError String :=
  match backend.invokeModel with
  | .error e => .error e
  | .ok textBody =>
    match jsonParse textBody with
    | none => .error ⟨"SyntaxError", "Unexpected token in JSON", none, none, none⟩
    | some json =>
      let text := extractTextFromConverseLikeJson (some json)
      if text = "" then
        .error (plainError "Empty model response from Bedrock InvokeModel API")
      else .ok text

/-- Whether `modelId` is an inference-profile ARN (`novaClient.ts` lines
73–74). -/
def isInferenceProfileArn (modelId : String) : Bool :=
  jsStartsWith modelId "arn:aws:bedrock:" && jsIncludes modelId ":inference-profile/"

/-- The `novaConverseText` of `novaClient.ts` lines 68–106: inference-profile
ARNs go straight to the single-call protocol; otherwise the structured
protocol is tried and, exactly on a `ValidationException` whose message
contains `operation not allowed` case-insensitively, retried once via the
single-call protocol; any other failure (including the empty-response
`Error` raised inside the `try`) propagates unmodified. -/
def novaConverseText (modelId : String) (backend : Backend) : Except JsError String :=
  if isInferenceProfileArn modelId then invokeModelFallback backend
  else
    let attempt : Except JsError String :=
      match backend.converse with
      | .error e => .error e
      | .ok parts =>
        let text := String.join (parts.map (fun p =>
          match p.text with
          | some t => t
          | none => ""))
        if text = "" then
          .error (plainError "Empty model response from Bedrock Converse API")
        else .ok text
    match attempt with
    | .ok text => .ok text
    | .error e =>
      if e.name = "ValidationException" ∧
          jsIncludes (jsToLower e.message) "operation not allowed" then
        invokeModelFallback backend
      else .error e

/-- Concrete body exercising the truncation: 14 valid prior messages. -/
def historyWitnessMsgs : List Json :=
  List.replicate 14 (Json.obj [("role", Json.str "user"), ("content", Json.str "m")])

/-- Concrete request body for the C8 witness. -/
def historyWitnessBody : Option Json :=
  some (.obj [("goal", .str "g"), ("messages", .arr historyWitnessMsgs)])

/-- The first-`\x7b` / last-`\x7d` pair with the first strictly before the
last, when both exist (the slicing precondition of the heuristic). -/
def bracesPairIdx (s : String) : Option (Nat × Nat) :=
  match s.data.findIdx? (· = '\x7b'), lastIdxOf '\x7d' s.data with
  | some i, some j => if i < j then some (i, j) else none
  | _, _ => none

/-- The first-`[` / last-`]` pair, analogously. -/
def bracketsPairIdx (s : String) : Option (Nat × Nat) :=
  match s.data.findIdx? (· = '['), lastIdxOf ']' s.data with
  | some i, some j => if i < j then some (i, j) else none
  | _, _ => none

/-- The fenced decision text of the spec example. -/
def fencedFinalExample : String :=
  "```json \x7b\"action\":\"final\",\"output\":\"x\"\x7d ```"

/-- Oracle always answering non-JSON prose. -/
def proseOracle : ModelOracle := fun _ _ => .ok "not json"

/-- The canonical-form decision naming an unregistered tool. -/
def deleteAllText : String := "\x7b\"action\":\"tool\",\"tool\":\"deleteAll\"\x7d"

/-- Oracle always asking for the unregistered tool. -/
def deleteAllOracle : ModelOracle := fun _ _ => .ok deleteAllText

/-- The loop state carried by a turn outcome. -/
def turnStateOf : TurnResult → LoopState
  | .next st => st
  | .finalResp _ st => st
  | .thrown _ st => st

/-- The loop state carried by a loop result. -/
def loopStateOf : LoopResult → LoopState
  | .finalResp _ st => st
  | .budget st => st
  | .thrown _ st => st

/-- A compact-form decision calling `writeDraft` forever. -/
def draftLoopText : String := "\x7b\"action\":\"writeDraft\",\"input\":\"a\"\x7d"

/-- Oracle that never finalizes. -/
def draftLoopOracle : ModelOracle := fun _ _ => .ok draftLoopText

/-- Environment with a model id and no API key. -/
def plainEnv : ServerEnv := ⟨none, some "m", none⟩

/-- Request carrying only a goal. -/
def plainGoalReq : AgentHttpRequest := ⟨none, some (.obj [("goal", .str "g")])⟩

/-- A concrete inference-profile ARN. -/
def arnModelId : String := "arn:aws:bedrock:us-east-1:123:inference-profile/p"

/-- A concrete `ValidationException` in the retried class. -/
def validationErr : JsError :=
  ⟨"ValidationException", "Operation Not Allowed for on-demand throughput", none, none, none⟩

/-- Backend whose structured call fails retriably and whose single-call
body carries `outputText`. -/
def flatBackend : Backend :=
  ⟨.error validationErr, .ok "\x7b\"outputText\":\"hi\"\x7d"⟩

/-- The legacy flat field names, in scan order. -/
def legacyFieldOrder : List String := ["outputText", "generation", "completion", "text"]

/-- The first field in the list holding a string value (of any length),
per the amended selection rule. -/
def firstStringFieldSpec (json : Option Json) : List String → Option String
  | [] => none
  | k :: ks =>
    match jsProp json k with
    | some (.str s) => some s
    | _ => firstStringFieldSpec json ks

/-- The first field in the list holding a non-empty string, per the
claim's "first non-empty match wins" wording. -/
def firstNonEmptyFieldSpec (json : Option Json) : List String → Option String
  | [] => none
  | k :: ks =>
    match jsProp json k with
    | some (.str s) => if s ≠ "" then some s else firstNonEmptyFieldSpec json ks
    | _ => firstNonEmptyFieldSpec json ks

/-- The selection rule exactly as the claim words it: structured blocks
first, then the first non-empty flat field. -/
def extractTextClaimSpec (json : Option Json) : String :=
  match extractTextFromConverseLikeJson.contentBlocksText json with
  | some t =>
    if t ≠ "" then t else (firstNonEmptyFieldSpec json legacyFieldOrder).getD ""
  | none => (firstNonEmptyFieldSpec json legacyFieldOrder).getD ""

/-- The amended selection rule: structured blocks first (non-empty wins
there), then the first flat field that holds a string — empty or not. -/
def extractTextAmendedSpec (json : Option Json) : String :=
  match extractTextFromConverseLikeJson.contentBlocksText json with
  | some t =>
    if t ≠ "" then t else (firstStringFieldSpec json legacyFieldOrder).getD ""
  | none => (firstStringFieldSpec json legacyFieldOrder).getD ""

/-- A response body whose `outputText` is the empty string while
`generation` holds text. -/
def emptyFirstJson : Json :=
  .obj [("outputText", .str ""), ("generation", .str "hi")]

/-- Backend whose single-call body carries only an empty `outputText`. -/
def emptyTextBackend : Backend :=
  ⟨.ok [], .ok "\x7b\"outputText\":\"\"\x7d"⟩

/-! # Lemmas and claim theorems -/

/-- The `slice(-n)` keeps at most `n` elements. -/
theorem lastN_length_le (n : Nat) (l : List α) : (lastN n l).length ≤ n := by
  simp [lastN]
  omega

/-- A fold accumulating membership indicators counts the matching entries. -/
theorem foldl_count_filter (t : List String) (q : List String) :
    ∀ acc : Nat, q.foldl (fun acc term => acc + (if t.contains term then 1 else 0)) acc
      = acc + (q.filter (fun term => t.contains term)).length := by
  induction q with
  | nil => intro acc; simp
  | cons x xs ih =>
    intro acc
    simp only [List.foldl_cons, List.filter_cons]
    by_cases h : t.contains x
    · simp only [h, if_true, ih, List.length_cons]
      omega
    · simp only [h, if_false, ih, Bool.false_eq_true]
      omega

/-- Specialization at accumulator `0`. -/
theorem foldl_count_filter0 (t q : List String) :
    q.foldl (fun acc term => acc + (if t.contains term then 1 else 0)) 0
      = (q.filter (fun term => t.contains term)).length := by
  simpa using foldl_count_filter t q 0

theorem retrieve_eq_spec (query : String) (limit : Nat) :
    retrieve query limit = retrieveSpec query limit := by
  unfold retrieve retrieveSpec
  simp only [foldl_count_filter0]

theorem mem_insertByDesc (score : α → Nat) (x b : α) (l : List α) :
    b ∈ insertByDesc score x l ↔ b = x ∨ b ∈ l := by
  induction l with
  | nil => simp [insertByDesc]
  | cons y ys ih =>
    simp only [insertByDesc]
    split
    · simp [List.mem_cons]
    · simp only [List.mem_cons, ih]
      tauto

theorem pairwise_insertByDesc (score : α → Nat) (x : α) (l : List α)
    (h : l.Pairwise (fun a b => score b ≤ score a)) :
    (insertByDesc score x l).Pairwise (fun a b => score b ≤ score a) := by
  induction l with
  | nil => simp [insertByDesc]
  | cons y ys ih =>
    rw [List.pairwise_cons] at h
    obtain ⟨hy, hys⟩ := h
    simp only [insertByDesc]
    split
    · rename_i hlt
      refine List.Pairwise.cons ?_ (List.Pairwise.cons hy hys)
      intro b hb
      rcases List.mem_cons.mp hb with rfl | hb2
      · omega
      · have := hy b hb2
        omega
    · rename_i hge
      refine List.Pairwise.cons ?_ (ih hys)
      intro b hb
      rcases (mem_insertByDesc score x b ys).mp hb with rfl | hb2
      · omega
      · exact hy b hb2

theorem pairwise_foldl_insert (score : α → Nat) (l : List α) :
    ∀ acc : List α, acc.Pairwise (fun a b => score b ≤ score a) →
      (l.foldl (fun acc x => insertByDesc score x acc) acc).Pairwise
        (fun a b => score b ≤ score a) := by
  induction l with
  | nil => intro acc h; simpa using h
  | cons x xs ih =>
    intro acc h
    exact ih _ (pairwise_insertByDesc score x acc h)

theorem pairwise_stableSortDesc (score : α → Nat) (l : List α) :
    (stableSortDesc score l).Pairwise (fun a b => score b ≤ score a) :=
  pairwise_foldl_insert score l [] (by simp)

theorem retrieve_sorted (query : String) (limit : Nat) :
    (retrieve query limit).Pairwise (fun a b => b.score ≤ a.score) := by
  unfold retrieve
  dsimp only
  split
  · simp
  · rw [List.pairwise_map]
    exact List.Pairwise.sublist (List.take_sublist _ _)
      (pairwise_stableSortDesc (fun (x : Doc × Nat) => x.2) _)

/-- C10: Each tool mutates at most its own designated Tool Context field:
for every context and input, `makePlan` leaves `draft` unchanged,
`writeDraft` leaves `plan` unchanged, and `retrieve` leaves the whole
context unchanged. -/
theorem C10_tool_frame (ctx : ToolContext) (input : Option Json) :
    (makePlan ctx input).2.draft = ctx.draft ∧
    (writeDraft ctx input).2.plan = ctx.plan ∧
    (retrieveTool ctx input).2 = ctx := by
  refine ⟨rfl, rfl, ?_⟩
  unfold retrieveTool
  split <;> rfl

/-- C2: the Retrieval Scorer computes, for every query and limit, exactly
the spec-described ranking (per-occurrence membership scores, zero scores
excluded, stable descending sort, truncation to the limit), its output
scores are descending, and the query `demo video` ranks the document
containing both tokens above the one matching a single token. -/
theorem C2_retrieval_scorer (query : String) (limit : Nat) :
    retrieve query limit = retrieveSpec query limit ∧
    (retrieve query limit).Pairwise (fun a b => b.score ≤ a.score) ∧
    (retrieve "demo video" 5).map (fun h => (h.id, h.score)) =
      [("hackathon-submission", 2), ("agentic-best-practices", 1)] :=
  ⟨retrieve_eq_spec query limit, retrieve_sorted query limit, by decide⟩

/-- C8: for every request body, the retained history is the last 12
sanitized entries of `messages`, hence at most 12 turns, and the initial
message list is that history plus exactly one new user goal turn, hence of
length at most 13. -/
theorem C8_history_truncation (body : Option Json) :
    (∀ msgs, jsProp body "messages" = some (.arr msgs) →
       bodyHistory body = lastN 12 (msgs.filterMap sanitizeEntry)) ∧
    (bodyHistory body).length ≤ 12 ∧
    initialMessages body =
      bodyHistory body ++ [⟨.user, goalContent (bodyGoal body) (bodyContext body)⟩] ∧
    (initialMessages body).length ≤ 13 := by
  have hlen : (bodyHistory body).length ≤ 12 := by
    unfold bodyHistory
    split
    · exact lastN_length_le 12 _
    · simp
  refine ⟨?_, hlen, rfl, ?_⟩
  · intro msgs h
    unfold bodyHistory
    rw [h]
    rfl
  · have : (initialMessages body).length = (bodyHistory body).length + 1 := by
      simp [initialMessages]
    omega

/-- Witness: the C8 theorem applied at a request with 14 prior messages. -/
theorem C8_history_truncation_witness :
    bodyHistory historyWitnessBody =
      lastN 12 (historyWitnessMsgs.filterMap sanitizeEntry) ∧
    (initialMessages historyWitnessBody).length ≤ 13 :=
  ⟨(C8_history_truncation historyWitnessBody).1 historyWitnessMsgs rfl,
   (C8_history_truncation historyWitnessBody).2.2.2⟩

/-- C3: the extraction applies the ordered heuristic: strip a whole-text
fence (optionally tagged `json`), use the result verbatim when it starts
with a brace/bracket, else slice the first-brace/last-brace pair, else the
first-bracket/last-bracket pair, else return the text unchanged; and the
fenced example yields the decision Final with output `x` and no fence
artifacts. -/
theorem C3_decision_extraction :
    (∀ text inner, fenceInner (jsTrim text) = some inner →
       extractCandidate text = jsTrim inner) ∧
    (∀ text, extractJsonObject text =
       (let c := extractCandidate text
        if jsStartsWith c "\x7b" || jsStartsWith c "[" then c
        else
          match bracesPairIdx c with
          | some (i, j) => sliceBetween c.data i j
          | none =>
            match bracketsPairIdx c with
            | some (i, j) => sliceBetween c.data i j
            | none => c)) ∧
    extractJsonObject fencedFinalExample = "\x7b\"action\":\"final\",\"output\":\"x\"\x7d" ∧
    (∀ st : LoopState, stepTurn fencedFinalExample st =
       .finalResp "x" ⟨st.steps ++ [.model fencedFinalExample],
                       st.messages ++ [⟨.assistant, fencedFinalExample⟩], st.ctx⟩) := by
  refine ⟨?_, ?_, by decide, fun st => rfl⟩
  · intro text inner h
    unfold extractCandidate
    dsimp only
    rw [h]
  · intro text
    unfold extractJsonObject bracesPairIdx bracketsPairIdx
    dsimp only
    split
    · rfl
    · cases h1 : (extractCandidate text).data.findIdx? (· = '\x7b') with
      | some i =>
        cases h2 : lastIdxOf '\x7d' (extractCandidate text).data with
        | some j =>
          by_cases hij : i < j
          · simp [h1, h2, hij]
          · simp [h1, h2, hij, bracketSlice]
            cases h3 : (extractCandidate text).data.findIdx? (· = '[') with
            | some i2 =>
              cases h4 : lastIdxOf ']' (extractCandidate text).data with
              | some j2 => by_cases hij2 : i2 < j2 <;> simp [h3, h4, hij2]
              | none => simp [h3, h4]
            | none => simp [h3]
        | none =>
          simp [h1, h2, bracketSlice]
          cases h3 : (extractCandidate text).data.findIdx? (· = '[') with
          | some i2 =>
            cases h4 : lastIdxOf ']' (extractCandidate text).data with
            | some j2 => by_cases hij2 : i2 < j2 <;> simp [h3, h4, hij2]
            | none => simp [h3, h4]
          | none => simp [h3]
      | none =>
        simp [h1, bracketSlice]
        cases h3 : (extractCandidate text).data.findIdx? (· = '[') with
        | some i2 =>
          cases h4 : lastIdxOf ']' (extractCandidate text).data with
          | some j2 => by_cases hij2 : i2 < j2 <;> simp [h3, h4, hij2]
          | none => simp [h3, h4]
        | none => simp [h3]

/-- Witness: the fence-stripping branch of C3 at the spec example. -/
theorem C3_decision_extraction_witness :
    extractCandidate fencedFinalExample =
      jsTrim " \x7b\"action\":\"final\",\"output\":\"x\"\x7d " :=
  C3_decision_extraction.1 fencedFinalExample
    " \x7b\"action\":\"final\",\"output\":\"x\"\x7d " rfl

/-- The gate of `agentTypes.ts` line 184 rejects exactly the values that
are not objects carrying an `action` field (a parse failure, any
non-object — falsy values and arrays included — or an object without the
key). -/
theorem gate_none_iff (o : Option Json) :
    decisionGate o = none ↔
      ¬ ∃ fields, o = some (.obj fields) ∧ objHasKey fields "action" = true := by
  cases o with
  | none => simp [decisionGate]
  | some j =>
    cases j with
    | null => simp [decisionGate, jsFalsy]
    | bool b => cases b <;> simp [decisionGate, jsFalsy]
    | num m e =>
      by_cases h : m = 0 <;> simp [decisionGate, jsFalsy, h]
    | str s =>
      by_cases h : s = "" <;> simp [decisionGate, jsFalsy, h]
    | arr l => simp [decisionGate, jsFalsy]
    | obj fields =>
      by_cases h : objHasKey fields "action" <;> simp [decisionGate, jsFalsy, h]

/-- C4: whenever the model text does not decode to an object carrying an
`action` field (the parse step itself returns the absence value, never an
exception), the run fails with the decision-parse error, and the
transcript gains exactly one Model step followed by exactly one Error
step. -/
theorem C4_parse_failure (oracle : ModelOracle) (turn fuel : Nat) (st : LoopState)
    (region text : String)
    (hok : oracle turn st.messages = Except.ok text)
    (hbad : ¬ ∃ fields, safeJsonParse text = some (.obj fields) ∧
        objHasKey fields "action" = true) :
    respondOf region (runLoop oracle turn (fuel + 1) st) =
      .catchFailure parseErrorMessage (toErrorDetails (plainError parseErrorMessage))
        (hintFor region)
        (st.steps ++ [.model text, .error parseErrorMessage]) := by
  have hg : decisionGate (safeJsonParse text) = none := (gate_none_iff _).mpr hbad
  unfold runLoop
  rw [hok]
  unfold stepTurn
  dsimp only
  rw [hg]
  simp [respondOf, toErrorDetails, plainError]

/-- Witness: C4 at a concrete oracle whose text is unparsable prose. -/
theorem C4_parse_failure_witness :
    respondOf "(unset)" (runLoop proseOracle 0 8 ⟨[], [], createToolContext⟩) =
      .catchFailure parseErrorMessage (toErrorDetails (plainError parseErrorMessage))
        (hintFor "(unset)")
        ([AgentStep.model "not json", AgentStep.error parseErrorMessage]) :=
  C4_parse_failure proseOracle 0 7 ⟨[], [], createToolContext⟩ "(unset)" "not json" rfl
    (by
      rintro ⟨fields, hf, -⟩
      rw [show safeJsonParse "not json" = none from rfl] at hf
      exact Option.noConfusion hf)

/-- C5: a decision naming a tool outside the fixed registry — canonical
form `action: "tool"` with an unregistered `tool`, or compact form with an
unregistered action string — makes the run end in a dispatch failure with
the Tool Context exactly as it was before the dispatch attempt. -/
theorem C5_unknown_tool (oracle : ModelOracle) (turn fuel : Nat) (st : LoopState)
    (text : String) (fields : List (String × Json))
    (hok : oracle turn st.messages = Except.ok text)
    (hgate : decisionGate (safeJsonParse text) = some fields) :
    (∀ toolv, objGet fields "action" = some (.str "tool") →
       objGet fields "tool" = toolv → isToolNameValue toolv = none →
       runLoop oracle turn (fuel + 1) st =
         .thrown (plainError ("Unknown or missing tool: " ++ jsToStringU toolv))
           ⟨st.steps ++ [.model text], st.messages ++ [⟨.assistant, text⟩], st.ctx⟩) ∧
    (∀ a, objGet fields "action" = some (.str a) → a ≠ "final" →
       isToolName a = none → a ≠ "tool" →
       runLoop oracle turn (fuel + 1) st =
         .thrown (plainError ("Unknown model action: " ++ a))
           ⟨st.steps ++ [.model text], st.messages ++ [⟨.assistant, text⟩], st.ctx⟩) := by
  constructor
  · intro toolv haction htool hunk
    unfold runLoop
    rw [hok]
    unfold stepTurn
    dsimp only
    rw [hgate]
    dsimp only
    simp [haction, htool, hunk, isToolName]
  · intro a haction hfin hname htool
    unfold runLoop
    rw [hok]
    unfold stepTurn
    dsimp only
    rw [hgate]
    dsimp only
    simp [haction, hfin, hname, htool]

/-- Witness: C5 at the `deleteAll` decision of the spec example. -/
theorem C5_unknown_tool_witness :
    runLoop deleteAllOracle 0 8 ⟨[], [], createToolContext⟩ =
      .thrown (plainError "Unknown or missing tool: deleteAll")
        ⟨[AgentStep.model deleteAllText],
         [⟨Role.assistant, deleteAllText⟩], createToolContext⟩ :=
  (C5_unknown_tool deleteAllOracle 0 7 ⟨[], [], createToolContext⟩ deleteAllText
      [("action", Json.str "tool"), ("tool", Json.str "deleteAll")] rfl rfl).1
    (some (Json.str "deleteAll")) rfl rfl rfl

/-- Tool dispatch appends no Model step. -/
theorem dispatchTool_count (tool : ToolName) (input : Option Json) (st1 : LoopState) :
    countModelSteps (turnStateOf (dispatchTool tool input st1)).steps =
      countModelSteps st1.steps := by
  cases tool
  · unfold dispatchTool continueWith
    dsimp only
    simp [turnStateOf, countModelSteps, List.countP_append]
  · unfold dispatchTool continueWith
    dsimp only
    split <;> simp [turnStateOf, countModelSteps, List.countP_append]
  · unfold dispatchTool continueWith
    dsimp only
    simp [turnStateOf, countModelSteps, List.countP_append]

/-- Each loop iteration appends exactly one Model step. -/
theorem stepTurn_count (text : String) (st : LoopState) :
    countModelSteps (turnStateOf (stepTurn text st)).steps =
      countModelSteps st.steps + 1 := by
  unfold stepTurn
  dsimp only
  split
  · simp [turnStateOf, countModelSteps, List.countP_append]
  · split
    · split
      · simp [turnStateOf, countModelSteps, List.countP_append]
      · split
        · rw [dispatchTool_count]
          simp [countModelSteps, List.countP_append]
        · split
          · split
            · rw [dispatchTool_count]
              simp [countModelSteps, List.countP_append]
            · simp [turnStateOf, countModelSteps, List.countP_append]
          · simp [turnStateOf, countModelSteps, List.countP_append]
    · simp [turnStateOf, countModelSteps, List.countP_append]

/-- The loop adds at most one Model step per remaining iteration. -/
theorem runLoop_count (oracle : ModelOracle) :
    ∀ fuel turn st,
      countModelSteps (loopStateOf (runLoop oracle turn fuel st)).steps ≤
        countModelSteps st.steps + fuel := by
  intro fuel
  induction fuel with
  | zero =>
    intro turn st
    simp [runLoop, loopStateOf]
  | succ n ih =>
    intro turn st
    unfold runLoop
    cases h : oracle turn st.messages with
    | error e =>
      dsimp only [loopStateOf]
      omega
    | ok text =>
      dsimp only
      have hc := stepTurn_count text st
      cases hs : stepTurn text st with
      | next st' =>
        rw [hs] at hc
        dsimp only [turnStateOf] at hc
        have := ih (turn + 1) st'
        dsimp only
        omega
      | finalResp out st' =>
        rw [hs] at hc
        dsimp only [turnStateOf] at hc
        dsimp only [loopStateOf]
        omega
      | thrown e st' =>
        rw [hs] at hc
        dsimp only [turnStateOf] at hc
        dsimp only [loopStateOf]
        omega

/-- The loop only consults the oracle at the turn indices it executes. -/
theorem runLoop_agree (oracle oracle2 : ModelOracle) :
    ∀ fuel turn st,
      (∀ i, turn ≤ i → i < turn + fuel → ∀ ms, oracle i ms = oracle2 i ms) →
      runLoop oracle turn fuel st = runLoop oracle2 turn fuel st := by
  intro fuel
  induction fuel with
  | zero => intro turn st _; rfl
  | succ n ih =>
    intro turn st h
    unfold runLoop
    rw [show oracle turn st.messages = oracle2 turn st.messages from
      h turn (Nat.le_refl _) (by omega) st.messages]
    cases oracle2 turn st.messages with
    | error e => rfl
    | ok text =>
      dsimp only
      cases stepTurn text st with
      | next st' =>
        exact ih (turn + 1) st' (fun i hi1 hi2 ms => h i (by omega) (by omega) ms)
      | finalResp out st' => rfl
      | thrown e st' => rfl

/-- C1: the transcript of any run holds at most 8 Model steps; the run
outcome depends only on the first 8 oracle answers (a 9th model invocation
never occurs); a loop that exhausts its fuel terminates as the distinct
turn-budget failure carrying the transcript accumulated so far, a shape
never produced by (and never conflatable with) a parse failure. -/
theorem C1_turn_budget (oracle oracle2 : ModelOracle)
    (hagree : ∀ i, i < maxTurns → ∀ ms, oracle i ms = oracle2 i ms) :
    (∀ env req s, respSteps (handleAgentRequest env req oracle) = some s →
       countModelSteps s ≤ maxTurns) ∧
    (∀ env req, handleAgentRequest env req oracle = handleAgentRequest env req oracle2) ∧
    (∀ turn st, runLoop oracle turn 0 st = .budget st) ∧
    (∀ region st, respondOf region (.budget st) = .budgetFailure budgetMessage st.steps) ∧
    (∀ e d h s s',
       (AgentResponse.budgetFailure budgetMessage s) ≠ AgentResponse.catchFailure e d h s') := by
  refine ⟨?_, ?_, fun turn st => rfl, fun region st => rfl, ?_⟩
  · intro env req s hs
    unfold handleAgentRequest at hs
    dsimp only at hs
    split at hs
    · exact absurd hs (by simp [respSteps])
    · split at hs
      · exact absurd hs (by simp [respSteps])
      · split at hs
        · exact absurd hs (by simp [respSteps])
        · exact absurd hs (by simp [respSteps])
        · have hcount := runLoop_count oracle maxTurns 0
            ⟨[], initialMessages req.body, createToolContext⟩
          cases hr : runLoop oracle 0 maxTurns
              ⟨[], initialMessages req.body, createToolContext⟩ with
          | finalResp out st' =>
            rw [hr] at hs hcount
            dsimp only [respondOf, respSteps, loopStateOf] at hs hcount
            cases hs
            simpa [countModelSteps] using hcount
          | budget st' =>
            rw [hr] at hs hcount
            dsimp only [respondOf, respSteps, loopStateOf] at hs hcount
            cases hs
            simpa [countModelSteps] using hcount
          | thrown e st' =>
            rw [hr] at hs hcount
            dsimp only [respondOf, respSteps, loopStateOf] at hs hcount
            cases hs
            simpa [countModelSteps, List.countP_append] using hcount
  · intro env req
    unfold handleAgentRequest
    dsimp only
    rw [runLoop_agree oracle oracle2 maxTurns 0
      ⟨[], initialMessages req.body, createToolContext⟩
      (fun i h1 h2 ms => hagree i (by omega) ms)]
  · intro e d h s s'
    simp

/-- Witness: C1 at the concrete never-finalizing oracle. -/
theorem C1_turn_budget_witness :
    countModelSteps ((respSteps (handleAgentRequest plainEnv plainGoalReq draftLoopOracle)).getD [])
      ≤ maxTurns ∧
    runLoop draftLoopOracle 5 0 ⟨[], [], createToolContext⟩ = .budget ⟨[], [], createToolContext⟩ :=
  ⟨(C1_turn_budget draftLoopOracle draftLoopOracle (fun _ _ _ => rfl)).1 plainEnv plainGoalReq
      ((respSteps (handleAgentRequest plainEnv plainGoalReq draftLoopOracle)).getD []) rfl,
   (C1_turn_budget draftLoopOracle draftLoopOracle (fun _ _ _ => rfl)).2.2.1 5
      ⟨[], [], createToolContext⟩⟩

/-- C9 (counterexample): a run that exhausts its turn budget produces a
failure response carrying `error` (and `steps`) but neither `details` nor
`hint`, refuting the claimed universal `{error, details, hint, steps}`
failure shape. -/
theorem C9_response_shape_counterexample :
    respError (handleAgentRequest plainEnv plainGoalReq draftLoopOracle) = some budgetMessage ∧
    respDetails (handleAgentRequest plainEnv plainGoalReq draftLoopOracle) = none ∧
    respHint (handleAgentRequest plainEnv plainGoalReq draftLoopOracle) = none :=
  ⟨rfl, rfl, rfl⟩

/-- C9 (amended): every failure response carries `error`; the
`{error, details, hint, steps}` shape is exactly the catch-handler
failures; the turn-budget failure carries `error` and `steps` but no
`details`/`hint`; and every response of a started run — fatal or not —
carries the transcript. -/
theorem C9_response_shape (env : ServerEnv) (req : AgentHttpRequest) (oracle : ModelOracle) :
    ((respError (handleAgentRequest env req oracle) = none) ↔
       (∃ f s, handleAgentRequest env req oracle = .agent (.success f s))) ∧
    (∀ e d h s, handleAgentRequest env req oracle = .agent (.catchFailure e d h s) →
       respError (handleAgentRequest env req oracle) = some e ∧
       respDetails (handleAgentRequest env req oracle) = some d ∧
       respHint (handleAgentRequest env req oracle) = some h ∧
       respSteps (handleAgentRequest env req oracle) = some s) ∧
    (∀ e s, handleAgentRequest env req oracle = .agent (.budgetFailure e s) →
       respError (handleAgentRequest env req oracle) = some e ∧
       respSteps (handleAgentRequest env req oracle) = some s ∧
       respDetails (handleAgentRequest env req oracle) = none ∧
       respHint (handleAgentRequest env req oracle) = none) ∧
    (∀ a, handleAgentRequest env req oracle = .agent a →
       (respSteps (handleAgentRequest env req oracle)).isSome = true) := by
  cases hr : handleAgentRequest env req oracle with
  | unauthorized => simp [respError, respDetails, respHint, respSteps]
  | missingGoal => simp [respError, respDetails, respHint, respSteps]
  | missingModelId => simp [respError, respDetails, respHint, respSteps]
  | agent a =>
    cases a with
    | success f s => simp [respError, respDetails, respHint, respSteps]
    | budgetFailure e s => simp [respError, respDetails, respHint, respSteps]
    | catchFailure e d h s => simp [respError, respDetails, respHint, respSteps]

/-- Witness: the amended C9 at the concrete turn-budget run. -/
theorem C9_response_shape_witness :
    respError (handleAgentRequest plainEnv plainGoalReq draftLoopOracle) = some budgetMessage ∧
    respSteps (handleAgentRequest plainEnv plainGoalReq draftLoopOracle) =
      some ((respSteps (handleAgentRequest plainEnv plainGoalReq draftLoopOracle)).getD []) ∧
    respDetails (handleAgentRequest plainEnv plainGoalReq draftLoopOracle) = none ∧
    respHint (handleAgentRequest plainEnv plainGoalReq draftLoopOracle) = none :=
  (C9_response_shape plainEnv plainGoalReq draftLoopOracle).2.2.1 budgetMessage
    ((respSteps (handleAgentRequest plainEnv plainGoalReq draftLoopOracle)).getD []) rfl

/-- C6: inference-profile ARNs go straight to the single-call protocol
(for any structured-protocol behavior); otherwise the structured protocol
runs first and is retried exactly once via the single-call protocol if and
only if it failed with a `ValidationException` mentioning
`operation not allowed` (case-insensitively); any other failure propagates
unmodified, and a structured success is returned without any retry. -/
theorem C6_protocol_selection (modelId : String) (backend : Backend) :
    (isInferenceProfileArn modelId = true →
       novaConverseText modelId backend = invokeModelFallback backend) ∧
    (∀ conv2, isInferenceProfileArn modelId = true →
       novaConverseText modelId ⟨conv2, backend.invokeModel⟩ =
         novaConverseText modelId backend) ∧
    (∀ e, isInferenceProfileArn modelId = false → backend.converse = .error e →
       e.name = "ValidationException" →
       jsIncludes (jsToLower e.message) "operation not allowed" = true →
       novaConverseText modelId backend = invokeModelFallback backend) ∧
    (∀ e, isInferenceProfileArn modelId = false → backend.converse = .error e →
       ¬ (e.name = "ValidationException" ∧
          jsIncludes (jsToLower e.message) "operation not allowed" = true) →
       novaConverseText modelId backend = .error e) ∧
    (∀ parts, isInferenceProfileArn modelId = false → backend.converse = .ok parts →
       String.join (parts.map (fun p => match p.text with | some t => t | none => "")) ≠ "" →
       novaConverseText modelId backend =
         .ok (String.join (parts.map (fun p => match p.text with | some t => t | none => "")))) := by
  refine ⟨?_, ?_, ?_, ?_, ?_⟩
  · intro harn
    unfold novaConverseText
    rw [harn]
    rfl
  · intro conv2 harn
    unfold novaConverseText
    rw [harn]
    dsimp only
    unfold invokeModelFallback
    rfl
  · intro e harn hconv hname hmsg
    unfold novaConverseText
    rw [harn]
    dsimp only
    rw [hconv]
    dsimp only
    rw [if_pos (And.intro hname hmsg)]
    rfl
  · intro e harn hconv hcls
    unfold novaConverseText
    rw [harn]
    dsimp only
    rw [hconv]
    dsimp only
    rw [if_neg hcls]
    rfl
  · intro parts harn hconv htext
    unfold novaConverseText
    rw [harn]
    dsimp only
    rw [hconv]
    dsimp only
    rw [if_neg htext]
    rfl

/-- Witness: C6 at a concrete ARN (direct single-call) and at a concrete
retried `ValidationException`. -/
theorem C6_protocol_selection_witness :
    novaConverseText arnModelId flatBackend = invokeModelFallback flatBackend ∧
    novaConverseText "nova" flatBackend = invokeModelFallback flatBackend :=
  ⟨(C6_protocol_selection arnModelId flatBackend).1 rfl,
   (C6_protocol_selection "nova" flatBackend).2.2.1 validationErr rfl rfl rfl rfl⟩

/-- C7 (counterexample): on a body with an empty-string `outputText` and a
non-empty `generation`, the code returns the empty string while the
claimed first-non-empty rule would return the `generation` text. -/
theorem C7_text_extraction_counterexample :
    extractTextFromConverseLikeJson (some emptyFirstJson) = "" ∧
    extractTextClaimSpec (some emptyFirstJson) = "hi" ∧
    ("" : String) ≠ "hi" :=
  ⟨rfl, rfl, by decide⟩

/-- The nested flat-field matches equal the scan of the field list. -/
theorem flatField_eq_scan (json : Option Json) :
    extractTextFromConverseLikeJson.extractFlatField json =
      (firstStringFieldSpec json legacyFieldOrder).getD "" := by
  unfold extractTextFromConverseLikeJson.extractFlatField
  simp only [legacyFieldOrder]
  repeat' split
  all_goals simp_all [firstStringFieldSpec]

/-- C7 (amended): the single-call response text is the structured blocks'
concatenation when non-empty, else the first flat field among
`outputText`, `generation`, `completion`, `text` holding a string value —
empty or not; and under both protocols an empty resulting text is a
failure, never a success with empty content. -/
theorem C7_text_extraction (json : Option Json) (modelId : String) (backend : Backend) :
    extractTextFromConverseLikeJson json = extractTextAmendedSpec json ∧
    (∀ body j, backend.invokeModel = .ok body → jsonParse body = some j →
       extractTextFromConverseLikeJson (some j) = "" →
       invokeModelFallback backend =
         .error (plainError "Empty model response from Bedrock InvokeModel API")) ∧
    (∀ parts, isInferenceProfileArn modelId = false → backend.converse = .ok parts →
       String.join (parts.map (fun p => match p.text with | some t => t | none => "")) = "" →
       novaConverseText modelId backend =
         .error (plainError "Empty model response from Bedrock Converse API")) := by
  refine ⟨?_, ?_, ?_⟩
  · unfold extractTextFromConverseLikeJson extractTextAmendedSpec
    dsimp only
    split
    · split
      · rfl
      · exact flatField_eq_scan json
    · exact flatField_eq_scan json
  · intro body j hinv hparse hempty
    unfold invokeModelFallback
    rw [hinv]
    dsimp only
    rw [hparse]
    dsimp only
    rw [if_pos hempty]
  · intro parts harn hconv htext
    unfold novaConverseText
    rw [harn]
    dsimp only
    rw [hconv]
    dsimp only
    rw [if_pos htext]
    rfl

/-- Witness: the amended C7 at a concrete empty single-call body and a
concrete empty structured response. -/
theorem C7_text_extraction_witness :
    invokeModelFallback emptyTextBackend =
      .error (plainError "Empty model response from Bedrock InvokeModel API") ∧
    novaConverseText "nova" emptyTextBackend =
      .error (plainError "Empty model response from Bedrock Converse API") :=
  ⟨(C7_text_extraction none "nova" emptyTextBackend).2.1
      "\x7b\"outputText\":\"\"\x7d" (.obj [("outputText", .str "")]) rfl rfl rfl,
   (C7_text_extraction none "nova" emptyTextBackend).2.2 [] rfl rfl rfl⟩
